import Mathlib

/-!
Verification development for the SpreadsheetPoster repository.

The repository is a small Node/Express service that receives batches of
`(name, department, field, increment)` update requests and applies them to a
remote Google spreadsheet: it locates the row for the name, resolves the field
column against the header row, coerces the cell to a number, increments it and
writes the result back, producing one result record per request.

This file is a shallow embedding of that logic:
  * the remote spreadsheet (one workbook, as configured by the single-entry
    `departmentToSpreadsheetId` mapping) is modelled as a `Gateway` value:
    the ordered list of named sheets (each a ragged grid of cell strings)
    together with failure flags for the three remote operations
    (sheet listing, range read, single-cell write);
  * JavaScript numbers are modelled as exact decimal fractions
    (`mant / 10 ^ exp`, the `Dec` type) extended with the two infinities
    (`JsNum`); `jsNumber` models `Number(string)` coercion (whitespace
    trimming, empty string to 0, signed decimal literals with fraction and
    exponent, `0x`/`0o`/`0b` radix literals, `Infinity`; everything else is
    NaN, modelled as `none`); `NaN` never flows into arithmetic in the
    source, so `JsNum` needs no NaN constructor;
  * each API function returns its result together with the list of gateway
    calls it performed, so that claims about "no write attempted" or
    "zero gateway calls" are directly statable;
  * strings use ASCII case conversion and whitespace trimming, matching the
    data that actually flows through the service.
-/

namespace SpreadsheetPoster

/-- ASCII model of JavaScript `String.prototype.toLowerCase`. -/
def jsToLower (s : String) : String := String.mk (s.toList.map Char.toLower)

/-- Model of JavaScript `String.prototype.trim`: drop leading and trailing
whitespace characters. -/
def jsTrim (s : String) : String :=
  String.mk (((s.toList.dropWhile Char.isWhitespace).reverse.dropWhile
    Char.isWhitespace).reverse)

/-- `name.toLowerCase().trim()` as used for name matching (NameKey). -/
def normKey (s : String) : String := jsTrim (jsToLower s)

/-- An exact decimal fraction `mant / 10 ^ exp`, the model of finite
JavaScript numbers in this development. -/
structure Dec where
  mant : Int
  exp : Nat
deriving DecidableEq, Repr

/-- Addition of decimal fractions (common denominator `10 ^ max exp`). -/
def Dec.add (a b : Dec) : Dec :=
  let m := max a.exp b.exp
  ⟨a.mant * ((10 ^ (m - a.exp) : Nat) : Int) +
    b.mant * ((10 ^ (m - b.exp) : Nat) : Int), m⟩

/-- Negation of a decimal fraction. -/
def Dec.neg (a : Dec) : Dec := ⟨-a.mant, a.exp⟩

/-- JavaScript numbers: finite decimal values plus the infinities. -/
inductive JsNum where
  | num (d : Dec)
  | posInf
  | negInf
deriving DecidableEq, Repr

/-- Addition of a finite amount to a JavaScript number. -/
def JsNum.add : JsNum → Dec → JsNum
  | .num a, d => .num (a.add d)
  | .posInf, _ => .posInf
  | .negInf, _ => .negInf

/-- Value of one base-`b` digit, for `b ≤ 16`. -/
def radixDigitVal (b : Nat) (c : Char) : Option Nat :=
  let v : Option Nat :=
    if c.isDigit then some (c.toNat - 48)
    else if 'a' ≤ c ∧ c ≤ 'f' then some (c.toNat - 87)
    else if 'A' ≤ c ∧ c ≤ 'F' then some (c.toNat - 55)
    else none
  match v with
  | some v => if v < b then some v else none
  | none => none

/-- Value of a list of decimal digits. -/
def decDigitsVal (ds : List Char) : Nat :=
  ds.foldl (fun a c => 10 * a + (c.toNat - 48)) 0

/-- Parse the exponent suffix of a decimal literal (empty, or `e`/`E`
followed by an optionally signed digit string, consuming the whole rest). -/
def parseExpPart : List Char → Option Int
  | [] => some 0
  | c :: rest =>
    if c = 'e' ∨ c = 'E' then
      let sr : Bool × List Char :=
        match rest with
        | '+' :: r => (false, r)
        | '-' :: r => (true, r)
        | r => (false, r)
      let ds := sr.2.takeWhile Char.isDigit
      let rest3 := sr.2.dropWhile Char.isDigit
      if ds.isEmpty ∨ ¬ rest3.isEmpty then none
      else some (if sr.1 then -(decDigitsVal ds : Int) else (decDigitsVal ds : Int))
    else none

/-- Build the decimal value `digits(ip ++ fp) * 10 ^ (e - fp.length)`. -/
def mkDecLit (ip fp : List Char) (e : Int) : Dec :=
  let mant : Int := (decDigitsVal (ip ++ fp) : Nat)
  let scale : Int := (fp.length : Int) - e
  if scale ≤ 0 then ⟨mant * ((10 ^ (-scale).toNat : Nat) : Int), 0⟩
  else ⟨mant, scale.toNat⟩

/-- Parse an unsigned decimal literal (digits, optional fraction, optional
exponent); the whole input must be consumed. -/
def parseDecTail (cs : List Char) : Option Dec :=
  let ip := cs.takeWhile Char.isDigit
  let r1 := cs.dropWhile Char.isDigit
  match r1 with
  | '.' :: r2 =>
    let fp := r2.takeWhile Char.isDigit
    let r3 := r2.dropWhile Char.isDigit
    if ip.isEmpty ∧ fp.isEmpty then none
    else (parseExpPart r3).map (fun e => mkDecLit ip fp e)
  | _ =>
    if ip.isEmpty then none
    else (parseExpPart r1).map (fun e => mkDecLit ip [] e)

/-- Parse an optionally negated unsigned numeric literal (`Infinity` or a
decimal literal). -/
def parseSignedTail (cs : List Char) (neg : Bool) : Option JsNum :=
  if cs = "Infinity".toList then some (if neg then JsNum.negInf else JsNum.posInf)
  else (parseDecTail cs).map (fun d => JsNum.num (if neg then d.neg else d))

/-- Parse an unsigned radix literal body (after `0x`, `0o` or `0b`). -/
def parseRadix (b : Nat) (cs : List Char) : Option JsNum :=
  if cs.isEmpty then none
  else if cs.all (fun c => (radixDigitVal b c).isSome) then
    some (JsNum.num
      ⟨((cs.foldl (fun a c => b * a + (radixDigitVal b c).getD 0) 0 : Nat) : Int), 0⟩)
  else none

/-- Model of JavaScript `Number(string)` coercion: `none` is NaN. -/
def jsNumber (s : String) : Option JsNum :=
  match (jsTrim s).toList with
  | [] => some (JsNum.num ⟨0, 0⟩)
  | '+' :: rest => parseSignedTail rest false
  | '-' :: rest => parseSignedTail rest true
  | '0' :: c :: rest =>
    if c = 'x' ∨ c = 'X' then parseRadix 16 rest
    else if c = 'o' ∨ c = 'O' then parseRadix 8 rest
    else if c = 'b' ∨ c = 'B' then parseRadix 2 rest
    else parseSignedTail ('0' :: c :: rest) false
  | cs => parseSignedTail cs false

/-- Drop trailing zero characters (for fractional rendering). -/
def stripTrailingZeros (s : String) : String :=
  String.mk ((s.toList.reverse.dropWhile (fun c => c = '0')).reverse)

/-- Decimal string of a decimal fraction, as JavaScript prints it. -/
def Dec.toJsString (d : Dec) : String :=
  let sign := if d.mant < 0 then "-" else ""
  let n := d.mant.natAbs
  let p : Nat := 10 ^ d.exp
  if n % p = 0 then sign ++ toString (n / p)
  else
    sign ++ toString (n / p) ++ "." ++
      stripTrailingZeros ((toString (p + n % p)).drop 1)

/-- Model of JavaScript `Number.prototype.toString` (base 10). -/
def JsNum.toJsString : JsNum → String
  | .posInf => "Infinity"
  | .negInf => "-Infinity"
  | .num d => d.toJsString

/-- A sheet grid: ordered rows of cell strings (ragged). -/
abbrev Grid : Type := List (List String)

/-- The remote spreadsheet behind the single configured spreadsheet id:
its ordered named sheets, plus failure switches for the three remote
operations (`getSheetNames`, range read, single-cell write; a failing call
is what the source catches as an API error). -/
structure Gateway where
  sheets : List (String × Grid)
  listFails : Bool
  readFails : String → Bool
  writeFails : String → Bool

/-- One remote call performed against the gateway.  A write carries the
cell address string built by the source plus its structured target and the
written value, so that batch processing can apply its effect. -/
inductive Call where
  | listNames
  | read (sheetName : String)
  | write (addr : String) (sheetName : String) (colIdx : Nat) (rowNum : Nat)
      (value : String)
deriving DecidableEq, Repr

/-- Is this call a write? -/
def Call.isWrite : Call → Bool
  | .write _ _ _ _ _ => true
  | _ => false

/-- `getSheetNames`: titles of all sheets, `[]` when the remote call fails
(the source catches the error and returns an empty array). -/
def getSheetNames (gw : Gateway) : List String :=
  if gw.listFails then [] else gw.sheets.map (fun p => p.1)

/-- Reading range `sheetName!A:Z` : `none` models a failed call (including a
nonexistent sheet); otherwise the sheet grid truncated to columns A..Z. -/
def readAtoZ (gw : Gateway) (sheetName : String) : Option Grid :=
  if gw.readFails sheetName then none
  else match gw.sheets.find? (fun p => p.1 == sheetName) with
    | none => none
    | some p => some (p.2.map (fun r => r.take 26))

/-- JavaScript `Array.prototype.findIndex` (`none` models `-1`). -/
def jsFindIndex (p : α → Bool) : List α → Option Nat
  | [] => none
  | a :: rest => if p a then some 0 else (jsFindIndex p rest).map (fun i => i + 1)

/-- Resolution of the name-column specifier in `findNameInSheet`
(source lines 156-168): a specifier of length > 1 is matched against the
header row by *untrimmed* lowercase equality (`none` models the early
`return` on `findIndex` giving `-1`); otherwise the index is
`toUpperCase().charCodeAt(0) - 65`, which no header can influence
(`none` for the empty specifier models the `NaN` index, which can never
match a row). -/
def resolveNameColumn (headerRow : List String) (nameColumn : String) : Option Int :=
  if nameColumn.length > 1 then
    (jsFindIndex (fun h => jsToLower h == jsToLower nameColumn) headerRow).map
      (fun i => (i : Int))
  else
    match nameColumn.toList with
    | [] => none
    | c :: _ => some ((c.toUpper.toNat : Int) - 65)

/-- Resolution of the field-column specifier (source lines 227-231 and
417-420): first non-empty header whose trimmed lowercase value equals the
trimmed lowercase specifier; there is no single-letter branch. -/
def resolveFieldColumn (headerRow : List String) (columnName : String) : Option Nat :=
  jsFindIndex
    (fun h => h != "" && (jsTrim (jsToLower h) == jsTrim (jsToLower columnName)))
    headerRow

/-- `row[idx]` with JavaScript out-of-range (and negative-index) access
giving `undefined`, modelled as `none`. -/
def cellAt (row : List String) (idx : Int) : Option String :=
  if idx < 0 then none else row.get? idx.toNat

/-- The per-row test of the search loop in `findNameInSheet` (source lines
171-191): skip empty rows and rows not reaching the column; match when the
cell is truthy (non-empty) and its normalized value equals the search key. -/
def rowMatches (key : String) (idx : Int) (row : List String) : Bool :=
  !row.isEmpty && decide ((row.length : Int) > idx) &&
    (match cellAt row idx with
      | some c => c != "" && (jsTrim (jsToLower c) == key)
      | none => false)

/-- The search loop of `findNameInSheet`: first matching row wins; the
returned number is the JavaScript `i + 1` where `i` is the counter
(starting at 1 for the first data row). -/
def findRow (key : String) (idx : Int) : Grid → Nat → Option (Nat × List String)
  | [], _ => none
  | row :: rest, i =>
    if rowMatches key idx row then some (i + 1, row)
    else findRow key idx rest (i + 1)

/-- Result object of `findNameInSheet`. -/
structure FindRes where
  found : Bool
  row : Option Nat
  rowData : Option (List String)
  allData : Option Grid
deriving DecidableEq, Repr

/-- `findNameInSheet` (source lines 132-202).  Its single gateway call is
the `A:Z` read, recorded by callers as `Call.read sheetName`. -/
def findNameInSheet (gw : Gateway) (name sheetName nameColumn : String) : FindRes :=
  match readAtoZ gw sheetName with
  | none => ⟨false, none, none, none⟩
  | some values =>
    if values.isEmpty then ⟨false, none, none, some []⟩
    else
      match resolveNameColumn (values.headD []) nameColumn with
      | none => ⟨false, none, none, some values⟩
      | some idx =>
        match findRow (normKey name) idx (values.drop 1) 1 with
        | some p => ⟨true, some p.1, some p.2, some values⟩
        | none => ⟨false, none, none, some values⟩

/-- Result object of `findColumnValueForUser` (the `user` echo field, which
no caller in the source reads, is omitted). -/
structure FCVRes where
  found : Bool
  value : Option (Option String)
  row : Option Nat
  column : Option Nat
  columnLetter : Option String
  message : Option String
deriving DecidableEq, Repr

/-- `String.fromCharCode(65 + columnIndex)`. -/
def letterOf (ci : Nat) : String := String.singleton (Char.ofNat (65 + ci))

/-- `findColumnValueForUser` (source lines 213-257): locate the user, then
resolve the field column against the header row; `value` is the user row's
cell there, `null` (modelled `some none`) when the row is too short. -/
def findColumnValueForUser (gw : Gateway)
    (name columnName sheetName nameColumn : String) : FCVRes :=
  let ur := findNameInSheet gw name sheetName nameColumn
  if !ur.found then
    ⟨false, none, none, none, none,
      some ("User \x22" ++ name ++ "\x22 not found in the sheet")⟩
  else
    match resolveFieldColumn ((ur.allData.getD []).headD []) columnName with
    | none =>
      ⟨false, none, none, none, none,
        some ("Column \x22" ++ columnName ++ "\x22 not found in sheet headers")⟩
    | some ci =>
      ⟨true, some ((ur.rowData.getD []).get? ci), ur.row, some (ci + 1),
        some (letterOf ci), none⟩

/-- Result object of the increment operations. -/
structure IncRes where
  success : Bool
  previousValue : Option JsNum
  newValue : Option JsNum
  row : Option Nat
  column : Option Nat
  columnLetter : Option String
  sheetName : Option String
  message : Option String
deriving DecidableEq, Repr

/-- An `IncRes` carrying only a failure message. -/
def IncRes.fail (msg : String) : IncRes :=
  ⟨false, none, none, none, none, none, none, some msg⟩

/-- The numeric coercion step shared by both increment operations
(source lines 286-297 and 431-440): a missing cell (`null`) counts as 0,
otherwise `Number(value)`; `none` is the NaN outcome. -/
def coerceCell : Option String → Option JsNum
  | none => some (JsNum.num ⟨0, 0⟩)
  | some v => jsNumber v

/-- The tail of `incrementColumnValueForUser` once a numeric current value
`cv` is in hand (source lines 299-324): compute the new value, write its
string to `sheetName!<columnLetter><row>`, and report. -/
def incrementWriteStep (gw : Gateway) (name columnName : String)
    (incrementBy : Dec) (sheetName : String) (res : FCVRes) (cv : JsNum) :
    IncRes × List Call :=
  let newV := cv.add incrementBy
  let rn := res.row.getD 0
  let addr := sheetName ++ "!" ++ res.columnLetter.getD "" ++ toString rn
  let wc := Call.write addr sheetName (res.column.getD 1 - 1) rn newV.toJsString
  if gw.writeFails addr then
    (IncRes.fail ("Failed to update " ++ columnName ++ " for user " ++ name),
      [Call.read sheetName, wc])
  else
    (⟨true, some cv, some newV, res.row, res.column, res.columnLetter, none, none⟩,
      [Call.read sheetName, wc])

/-- `incrementColumnValueForUser` (source lines 269-329), with the list of
gateway calls it performs. -/
def incrementColumnValueForUser (gw : Gateway) (name columnName : String)
    (incrementBy : Dec) (sheetName nameColumn : String) : IncRes × List Call :=
  let res := findColumnValueForUser gw name columnName sheetName nameColumn
  if !res.found then
    (IncRes.fail (res.message.getD
      ("Failed to find " ++ columnName ++ " for user " ++ name)),
      [Call.read sheetName])
  else
    match res.value with
    | some (some v) =>
      match jsNumber v with
      | none =>
        (IncRes.fail ("Value \x27" ++ v ++ "\x27 in " ++ columnName ++
          " for user " ++ name ++ " is not a number"), [Call.read sheetName])
      | some cv => incrementWriteStep gw name columnName incrementBy sheetName res cv
    | _ => incrementWriteStep gw name columnName incrementBy sheetName res (JsNum.num ⟨0, 0⟩)

/-- The exhausted-search failure of
`findAndIncrementColumnValueAcrossSheets` (source lines 476-480): the one
message reported after the sheet loop, whatever happened inside it. -/
def acrossFail (name : String) : IncRes :=
  IncRes.fail ("User \x22" ++ name ++ "\x22 not found in any sheet in the spreadsheet")

/-- The per-sheet loop of `findAndIncrementColumnValueAcrossSheets`
(source lines 407-474): for each sheet, locate the name; on a match resolve
the field column (skipping the sheet when it is absent), read the cell
(missing counts as 0, non-numeric skips the sheet), then write the
incremented value and stop.  A failed write aborts the whole loop. -/
def acrossLoop (gw : Gateway) (name columnName : String) (incrementBy : Dec)
    (nameColumn : String) : List String → IncRes × List Call
  | [] => (acrossFail name, [])
  | s :: rest =>
    let ur := findNameInSheet gw name s nameColumn
    if ur.found then
      match resolveFieldColumn ((ur.allData.getD []).headD []) columnName with
      | none =>
        let t := acrossLoop gw name columnName incrementBy nameColumn rest
        (t.1, Call.read s :: t.2)
      | some ci =>
        match coerceCell ((ur.rowData.getD []).get? ci) with
        | none =>
          let t := acrossLoop gw name columnName incrementBy nameColumn rest
          (t.1, Call.read s :: t.2)
        | some cv =>
          let newV := cv.add incrementBy
          let rn := ur.row.getD 0
          let addr := s ++ "!" ++ letterOf ci ++ toString rn
          let wc := Call.write addr s ci rn newV.toJsString
          if gw.writeFails addr then
            (IncRes.fail ("Failed to update " ++ columnName ++ " for user " ++
              name ++ " in sheet " ++ s), [Call.read s, wc])
          else
            (⟨true, some cv, some newV, some rn, some (ci + 1),
              some (letterOf ci), some s, none⟩, [Call.read s, wc])
    else
      let t := acrossLoop gw name columnName incrementBy nameColumn rest
      (t.1, Call.read s :: t.2)

/-- `findAndIncrementColumnValueAcrossSheets` (source lines 389-485). -/
def findAndIncrementColumnValueAcrossSheets (gw : Gateway)
    (name columnName : String) (incrementBy : Dec) (nameColumn : String) :
    IncRes × List Call :=
  let names := getSheetNames gw
  if names.isEmpty then (IncRes.fail "No sheets found in spreadsheet", [Call.listNames])
  else
    let t := acrossLoop gw name columnName incrementBy nameColumn names
    (t.1, Call.listNames :: t.2)

/-- The configured department-to-spreadsheet mapping
(`src/Service/src/index.js` line 84). -/
def departmentToSpreadsheetId (d : String) : Option String :=
  if d = "FMB" then some "1hfqaBA_a0jr9iJLKmQ_xZ5kiwP5XL-3eXK9uE_bCx_o" else none

/-- The configured field alias mapping (`src/Service/src/index.js` line 92). -/
def fieldMappings (f : String) : Option String :=
  if f = "ft" then some "FUNDA. TRAINING(S)" else none

/-- One update request of the batch body (absent `increment` is `none`;
absent strings collapse to `""`, which is what the source's truthiness
checks see). -/
structure UpdateReq where
  name : String
  department : String
  field : String
  increment : Option Dec
deriving DecidableEq, Repr

/-- One entry of the `results` array returned by the `/update-fields`
handler: the increment result spread together with the request echo. -/
structure ReqResult where
  success : Bool
  previousValue : Option JsNum
  newValue : Option JsNum
  row : Option Nat
  column : Option Nat
  columnLetter : Option String
  sheetName : Option String
  message : Option String
  name : String
  department : String
  field : String
  increment : Option Dec
deriving DecidableEq, Repr

/-- JavaScript `a || b` for strings (empty is falsy). -/
def jsOr (a b : String) : String := if a = "" then b else a

/-- The `fieldName` computed once per batch from the first payload
(`src/Service/src/index.js` line 132); it is echoed in the failure results
of *every* request. -/
def batchFieldName : List UpdateReq → String
  | [] => "Unknown"
  | u :: _ => jsOr ((fieldMappings u.field).getD "") (jsOr u.field "Unknown")

/-- A `ReqResult` carrying only a failure message plus the echo fields. -/
def ReqResult.fail (msg name department field : String) : ReqResult :=
  ⟨false, none, none, none, none, none, none, some msg, name, department, field, none⟩

/-- Processing of a single request inside the `/update-fields` loop
(`src/Service/src/index.js` lines 150-198): validate, resolve the
department, then run the across-sheets increment and spread its result. -/
def applyOne (gw : Gateway) (fieldName0 : String) (u : UpdateReq) :
    ReqResult × List Call :=
  if u.name = "" ∨ u.department = "" ∨ u.field = "" then
    (ReqResult.fail "Missing required fields (name, department, or field)"
      (jsOr u.name "unknown") (jsOr u.department "unknown")
      (jsOr fieldName0 "unknown"), [])
  else
    match departmentToSpreadsheetId u.department with
    | none =>
      (ReqResult.fail ("Unknown department: " ++ u.department)
        u.name u.department fieldName0, [])
    | some _sid =>
      let inc := u.increment.getD ⟨1, 0⟩
      let mapped := (fieldMappings u.field).getD u.field
      let t := findAndIncrementColumnValueAcrossSheets gw u.name mapped inc "USERNAME"
      (⟨t.1.success, t.1.previousValue, t.1.newValue, t.1.row, t.1.column,
        t.1.columnLetter, t.1.sheetName, t.1.message,
        u.name, u.department, mapped, some inc⟩, t.2)

/-- Set a cell of a grid, padding missing rows/cells as the remote store
does on a single-cell write (`rowIdx`, `colIdx` zero-based). -/
def setCell (g : Grid) (rowIdx colIdx : Nat) (v : String) : Grid :=
  let g2 : Grid := g ++ List.replicate (rowIdx + 1 - g.length) []
  g2.set rowIdx
    (let r := g2.getD rowIdx []
     (r ++ List.replicate (colIdx + 1 - r.length) "").set colIdx v)

/-- Apply a write to the first sheet of the given name. -/
def updateSheetList : List (String × Grid) → String → Nat → Nat → String →
    List (String × Grid)
  | [], _, _, _, _ => []
  | (n, g) :: rest, s, ri, ci, v =>
    if n == s then (n, setCell g ri ci v) :: rest
    else (n, g) :: updateSheetList rest s ri ci v

/-- Effect of one gateway call on the remote store: only a successful write
changes it. -/
def applyCall (gw : Gateway) : Call → Gateway
  | .write addr s ci rn v =>
    if gw.writeFails addr then gw
    else ⟨updateSheetList gw.sheets s (rn - 1) ci v, gw.listFails,
      gw.readFails, gw.writeFails⟩
  | _ => gw

/-- The gateway state after a prefix of the batch has been processed. -/
def batchGateway (gw : Gateway) (fieldName0 : String) : List UpdateReq → Gateway
  | [] => gw
  | u :: rest =>
    batchGateway ((applyOne gw fieldName0 u).2.foldl applyCall gw) fieldName0 rest

/-- The `results` array built by the `/update-fields` loop: requests are
processed strictly in order, each against the store as left by its
predecessors. -/
def applyBatch (gw : Gateway) (fieldName0 : String) : List UpdateReq → List ReqResult
  | [] => []
  | u :: rest =>
    (applyOne gw fieldName0 u).1 ::
      applyBatch ((applyOne gw fieldName0 u).2.foldl applyCall gw) fieldName0 rest

/-- The `/update-fields` handler core: one result per payload, in order. -/
def updateFields (gw : Gateway) (us : List UpdateReq) : List ReqResult :=
  applyBatch gw (batchFieldName us) us

/-- Substring test (used to state that a message mentions a literal). -/
def containsSub (l pat : List Char) : Bool :=
  match l with
  | [] => pat.isEmpty
  | _ :: t => pat.isPrefixOf l || containsSub t pat

/-- Does `s` contain `pat` as a substring? -/
def strContains (s pat : String) : Bool := containsSub s.toList pat.toList

/-! ### Concrete workbooks used by the closed witness and counterexample
theorems below -/

/-- An empty remote store. -/
def sampleEmpty : Gateway := ⟨[], false, fun _ => false, fun _ => false⟩

/-- One sheet; alice's PTS cell holds the non-numeric literal `N/A`. -/
def sampleNA : Gateway :=
  ⟨[("S", [["USERNAME", "PTS"], ["alice", "N/A"]])], false,
    fun _ => false, fun _ => false⟩

/-- Two sheets; alice's PTS cell is `N/A` in the first and `4` in the second. -/
def sampleNAThenNum : Gateway :=
  ⟨[("A", [["USERNAME", "PTS"], ["alice", "N/A"]]),
    ("B", [["USERNAME", "PTS"], ["alice", "4"]])], false,
    fun _ => false, fun _ => false⟩

/-- One sheet; alice's PTS cell holds `7`. -/
def sampleSeven : Gateway :=
  ⟨[("Events", [["USERNAME", "PTS"], ["alice", "7"]])], false,
    fun _ => false, fun _ => false⟩

/-- One sheet; bob's PTS cell is the empty string. -/
def sampleEmptyCell : Gateway :=
  ⟨[("Events", [["USERNAME", "PTS"], ["bob", ""]])], false,
    fun _ => false, fun _ => false⟩

/-- One sheet containing alice but no PTS column. -/
def sampleNoField : Gateway :=
  ⟨[("S", [["USERNAME"], ["alice"]])], false, fun _ => false, fun _ => false⟩

/-- One sheet containing bob (and no PTS column), so alice is absent. -/
def sampleNoName : Gateway :=
  ⟨[("S", [["USERNAME"], ["bob"]])], false, fun _ => false, fun _ => false⟩

/-- One sheet with a resolvable name column and one data row. -/
def sampleAlice3 : Gateway :=
  ⟨[("S", [["Username", "Pts"], ["alice", "3"]])], false,
    fun _ => false, fun _ => false⟩

/-- Two duplicate rows for bob under a Username header. -/
def sampleDup : Gateway :=
  ⟨[("S", [["Username"], ["BOB "], ["bob"]])], false,
    fun _ => false, fun _ => false⟩

/-- Two sheets holding alice; reads of the first sheet fail. -/
def sampleReadFail : Gateway :=
  ⟨[("A", [["USERNAME", "PTS"], ["alice", "1"]]),
    ("B", [["USERNAME", "PTS"], ["alice", "4"]])], false,
    fun s => s == "A", fun _ => false⟩

/-- A store whose sheet listing fails. -/
def sampleListFail : Gateway :=
  ⟨[("S", [["USERNAME", "PTS"], ["alice", "1"]])], true,
    fun _ => false, fun _ => false⟩

/-- One sheet whose first data row has an empty name cell. -/
def sampleEmptyName : Gateway :=
  ⟨[("S", [["Username"], [""], ["x"]])], false, fun _ => false, fun _ => false⟩

/-! ### Characterization lemmas for the search primitives -/

theorem jsFindIndex_eq_none_iff (p : α → Bool) (l : List α) :
    jsFindIndex p l = none ↔ ∀ a ∈ l, p a = false := by
  induction l with
  | nil => simp [jsFindIndex]
  | cons a t ih =>
    by_cases hp : p a
    · simp [jsFindIndex, hp]
    · simp only [jsFindIndex, hp, if_neg, Bool.false_eq_true, not_false_iff,
        Option.map_eq_none', List.mem_cons]
      constructor
      · intro h b hb
        rcases hb with hb | hb
        · subst hb; simpa using hp
        · exact ih.mp h b hb
      · intro h
        exact ih.mpr (fun b hb => h b (Or.inr hb))

theorem jsFindIndex_eq_some_iff (p : α → Bool) (l : List α) (i : Nat) :
    jsFindIndex p l = some i ↔
      (∃ a, l.get? i = some a ∧ p a = true) ∧
      ∀ j, j < i → ∀ b, l.get? j = some b → p b = false := by
  induction l generalizing i with
  | nil => simp [jsFindIndex]
  | cons a t ih =>
    by_cases hp : p a
    · simp only [jsFindIndex, hp, if_pos]
      constructor
      · intro h
        have hi : i = 0 := by cases h; rfl
        subst hi
        exact ⟨⟨a, rfl, hp⟩, fun j hj => absurd hj (Nat.not_lt_zero j)⟩
      · rintro ⟨⟨b, hb, hpb⟩, hmin⟩
        cases i with
        | zero => rfl
        | succ n =>
          have := hmin 0 (Nat.succ_pos n) a rfl
          rw [hp] at this
          exact absurd this (by simp)
    · simp only [jsFindIndex, hp, if_neg, Bool.false_eq_true, not_false_iff]
      cases i with
      | zero =>
        constructor
        · intro h
          rcases Option.map_eq_some'.mp h with ⟨m, _, hm⟩
          exact absurd hm (by simp)
        · rintro ⟨⟨b, hb, hpb⟩, _⟩
          have : b = a := by simpa using hb.symm
          subst this
          rw [hpb] at hp
          exact absurd rfl hp
      | succ n =>
        constructor
        · intro h
          rcases Option.map_eq_some'.mp h with ⟨m, hm, hmeq⟩
          have hnm : n = m := by omega
          subst hnm
          rcases (ih n).mp hm with ⟨⟨b, hb, hpb⟩, hmin⟩
          refine ⟨⟨b, by simpa using hb, hpb⟩, ?_⟩
          intro j hj c hc
          cases j with
          | zero =>
            have : c = a := by simpa using hc.symm
            subst this
            simpa using hp
          | succ k =>
            exact hmin k (by omega) c (by simpa using hc)
        · rintro ⟨⟨b, hb, hpb⟩, hmin⟩
          have ht : jsFindIndex p t = some n := by
            refine (ih n).mpr ⟨⟨b, by simpa using hb, hpb⟩, ?_⟩
            intro k hk c hc
            exact hmin (k + 1) (by omega) c (by simpa using hc)
          simp [ht]

theorem findRow_eq_none_iff (key : String) (idx : Int) (rows : Grid) (i : Nat) :
    findRow key idx rows i = none ↔ ∀ r ∈ rows, rowMatches key idx r = false := by
  induction rows generalizing i with
  | nil => simp [findRow]
  | cons row rest ih =>
    by_cases hm : rowMatches key idx row
    · simp [findRow, hm]
    · simp only [findRow, hm, if_neg, Bool.false_eq_true, not_false_iff,
        List.mem_cons]
      constructor
      · intro h b hb
        rcases hb with hb | hb
        · subst hb; simpa using hm
        · exact (ih (i + 1)).mp h b hb
      · intro h
        exact (ih (i + 1)).mpr (fun b hb => h b (Or.inr hb))

theorem findRow_eq_some_iff (key : String) (idx : Int) (rows : Grid)
    (i r : Nat) (row : List String) :
    findRow key idx rows i = some (r, row) ↔
      ∃ j, rows.get? j = some row ∧ rowMatches key idx row = true ∧
        r = i + j + 1 ∧
        ∀ k, k < j → ∀ rk, rows.get? k = some rk → rowMatches key idx rk = false := by
  induction rows generalizing i with
  | nil => simp [findRow]
  | cons hd rest ih =>
    by_cases hm : rowMatches key idx hd
    · simp only [findRow, hm, if_pos]
      constructor
      · intro h
        have h1 : i + 1 = r ∧ hd = row := by
          have := Option.some.inj h
          exact ⟨congrArg Prod.fst this, congrArg Prod.snd this⟩
        refine ⟨0, by simp [h1.2], by rw [← h1.2]; exact hm, by omega, ?_⟩
        intro k hk
        exact absurd hk (Nat.not_lt_zero k)
      · rintro ⟨j, hj, hmr, hr, hmin⟩
        cases j with
        | zero =>
          have : hd = row := by simpa using hj
          subst this
          have : r = i + 1 := by omega
          subst this
          rfl
        | succ m =>
          have := hmin 0 (Nat.succ_pos m) hd rfl
          rw [hm] at this
          exact absurd this (by simp)
    · simp only [findRow, hm, if_neg, Bool.false_eq_true, not_false_iff]
      constructor
      · intro h
        rcases (ih (i + 1)).mp h with ⟨j, hj, hmr, hr, hmin⟩
        refine ⟨j + 1, by simpa using hj, hmr, by omega, ?_⟩
        intro k hk rk hrk
        cases k with
        | zero =>
          have : hd = rk := by simpa using hrk
          subst this
          simpa using hm
        | succ m =>
          exact hmin m (by omega) rk (by simpa using hrk)
      · rintro ⟨j, hj, hmr, hr, hmin⟩
        cases j with
        | zero =>
          have : hd = row := by simpa using hj
          subst this
          rw [hmr] at hm
          exact absurd rfl hm
        | succ m =>
          refine (ih (i + 1)).mpr ⟨m, by simpa using hj, hmr, by omega, ?_⟩
          intro k hk rk hrk
          exact hmin (k + 1) (by omega) rk (by simpa using hrk)

/-- Shape of a successful `findNameInSheet` result. -/
theorem findNameInSheet_found (gw : Gateway) (n s nc : String)
    (h : (findNameInSheet gw n s nc).found = true) :
    ∃ grid idx r row, readAtoZ gw s = some grid ∧ grid.isEmpty = false ∧
      resolveNameColumn (grid.headD []) nc = some idx ∧
      findRow (normKey n) idx (grid.drop 1) 1 = some (r, row) ∧
      findNameInSheet gw n s nc = ⟨true, some r, some row, some grid⟩ := by
  cases hga : readAtoZ gw s with
  | none =>
    unfold findNameInSheet at h
    rw [hga] at h
    exact absurd h (by simp)
  | some grid =>
    unfold findNameInSheet at h ⊢
    simp only [hga] at h ⊢
    by_cases hemp : grid.isEmpty
    · rw [if_pos hemp] at h; exact absurd h (by simp)
    · rw [if_neg hemp] at h ⊢
      cases hcol : resolveNameColumn (grid.headD []) nc with
      | none => simp only [hcol] at h; exact absurd h (by simp)
      | some idx =>
        simp only [hcol] at h ⊢
        cases hrow : findRow (normKey n) idx (grid.drop 1) 1 with
        | none => simp only [hrow] at h; exact absurd h (by simp)
        | some p =>
          simp only [hrow]
          exact ⟨grid, idx, p.1, p.2, rfl, by simpa using hemp, hcol, hrow, rfl⟩

/-- Shape of `findNameInSheet` when the name column does not resolve. -/
theorem findNameInSheet_col_unresolved (gw : Gateway) (n s nc : String)
    (grid : Grid) (hga : readAtoZ gw s = some grid) (hemp : grid.isEmpty = false)
    (hcol : resolveNameColumn (grid.headD []) nc = none) :
    findNameInSheet gw n s nc = ⟨false, none, none, some grid⟩ := by
  unfold findNameInSheet
  simp only [hga]
  rw [if_neg (by simp [hemp])]
  simp only [hcol]

/-- Shape of `findNameInSheet` when the column resolves but no row matches. -/
theorem findNameInSheet_no_row (gw : Gateway) (n s nc : String)
    (grid : Grid) (idx : Int) (hga : readAtoZ gw s = some grid)
    (hemp : grid.isEmpty = false)
    (hcol : resolveNameColumn (grid.headD []) nc = some idx)
    (hrow : findRow (normKey n) idx (grid.drop 1) 1 = none) :
    findNameInSheet gw n s nc = ⟨false, none, none, some grid⟩ := by
  unfold findNameInSheet
  simp only [hga]
  rw [if_neg (by simp [hemp])]
  simp only [hcol, hrow]

/-! ### Branch equations for the across-sheets loop -/

theorem acrossLoop_cons_notFound (gw : Gateway) (n c : String) (q : Dec)
    (nc s : String) (rest : List String)
    (hf : (findNameInSheet gw n s nc).found = false) :
    acrossLoop gw n c q nc (s :: rest) =
      ((acrossLoop gw n c q nc rest).1,
        Call.read s :: (acrossLoop gw n c q nc rest).2) := by
  simp only [acrossLoop]
  rw [hf, if_neg (by simp)]

theorem acrossLoop_cons_noField (gw : Gateway) (n c : String) (q : Dec)
    (nc s : String) (rest : List String)
    (hf : (findNameInSheet gw n s nc).found = true)
    (hcol : resolveFieldColumn
      (((findNameInSheet gw n s nc).allData.getD []).headD []) c = none) :
    acrossLoop gw n c q nc (s :: rest) =
      ((acrossLoop gw n c q nc rest).1,
        Call.read s :: (acrossLoop gw n c q nc rest).2) := by
  simp only [acrossLoop]
  rw [hf, if_pos rfl, hcol]

theorem acrossLoop_cons_nan (gw : Gateway) (n c : String) (q : Dec)
    (nc s : String) (rest : List String) (ci : Nat)
    (hf : (findNameInSheet gw n s nc).found = true)
    (hcol : resolveFieldColumn
      (((findNameInSheet gw n s nc).allData.getD []).headD []) c = some ci)
    (hnan : coerceCell (((findNameInSheet gw n s nc).rowData.getD []).get? ci) = none) :
    acrossLoop gw n c q nc (s :: rest) =
      ((acrossLoop gw n c q nc rest).1,
        Call.read s :: (acrossLoop gw n c q nc rest).2) := by
  simp only [acrossLoop]
  rw [hf, if_pos rfl, hcol]
  show (match coerceCell (((findNameInSheet gw n s nc).rowData.getD []).get? ci) with
    | none => _
    | some cv => _) = _
  rw [hnan]

theorem acrossLoop_cons_writeFail (gw : Gateway) (n c : String) (q : Dec)
    (nc s : String) (rest : List String) (ci : Nat) (cv : JsNum)
    (hf : (findNameInSheet gw n s nc).found = true)
    (hcol : resolveFieldColumn
      (((findNameInSheet gw n s nc).allData.getD []).headD []) c = some ci)
    (hcv : coerceCell (((findNameInSheet gw n s nc).rowData.getD []).get? ci) = some cv)
    (hw : gw.writeFails (s ++ "!" ++ letterOf ci ++
      toString ((findNameInSheet gw n s nc).row.getD 0)) = true) :
    acrossLoop gw n c q nc (s :: rest) =
      (IncRes.fail ("Failed to update " ++ c ++ " for user " ++ n ++
          " in sheet " ++ s),
        [Call.read s,
         Call.write (s ++ "!" ++ letterOf ci ++
            toString ((findNameInSheet gw n s nc).row.getD 0)) s ci
          ((findNameInSheet gw n s nc).row.getD 0) ((cv.add q).toJsString)]) := by
  simp only [acrossLoop]
  rw [hf, if_pos rfl, hcol]
  show (match coerceCell (((findNameInSheet gw n s nc).rowData.getD []).get? ci) with
    | none => _
    | some cv => _) = _
  rw [hcv, hw]
  rfl

theorem acrossLoop_cons_writeOk (gw : Gateway) (n c : String) (q : Dec)
    (nc s : String) (rest : List String) (ci : Nat) (cv : JsNum)
    (hf : (findNameInSheet gw n s nc).found = true)
    (hcol : resolveFieldColumn
      (((findNameInSheet gw n s nc).allData.getD []).headD []) c = some ci)
    (hcv : coerceCell (((findNameInSheet gw n s nc).rowData.getD []).get? ci) = some cv)
    (hw : gw.writeFails (s ++ "!" ++ letterOf ci ++
      toString ((findNameInSheet gw n s nc).row.getD 0)) = false) :
    acrossLoop gw n c q nc (s :: rest) =
      (⟨true, some cv, some (cv.add q),
          some ((findNameInSheet gw n s nc).row.getD 0), some (ci + 1),
          some (letterOf ci), some s, none⟩,
        [Call.read s,
         Call.write (s ++ "!" ++ letterOf ci ++
            toString ((findNameInSheet gw n s nc).row.getD 0)) s ci
          ((findNameInSheet gw n s nc).row.getD 0) ((cv.add q).toJsString)]) := by
  simp only [acrossLoop]
  rw [hf, if_pos rfl, hcol]
  show (match coerceCell (((findNameInSheet gw n s nc).rowData.getD []).get? ci) with
    | none => _
    | some cv => _) = _
  rw [hcv, hw]
  rfl

/-! ### Induction lemmas for the across-sheets loop -/

/-- Every failure exit of the loop is an `IncRes.fail`. -/
theorem acrossLoop_fail_shape (gw : Gateway) (n c : String) (q : Dec)
    (nc : String) : ∀ L, (acrossLoop gw n c q nc L).1.success = false →
    ∃ m, (acrossLoop gw n c q nc L).1 = IncRes.fail m := by
  intro L
  induction L with
  | nil => intro _; exact ⟨_, rfl⟩
  | cons s rest ih =>
    intro h
    by_cases hf : (findNameInSheet gw n s nc).found
    · cases hcol : resolveFieldColumn
        (((findNameInSheet gw n s nc).allData.getD []).headD []) c with
      | none =>
        rw [acrossLoop_cons_noField gw n c q nc s rest hf hcol] at h ⊢
        exact ih h
      | some ci =>
        cases hcv : coerceCell
            (((findNameInSheet gw n s nc).rowData.getD []).get? ci) with
        | none =>
          rw [acrossLoop_cons_nan gw n c q nc s rest ci hf hcol hcv] at h ⊢
          exact ih h
        | some cv =>
          by_cases hw : gw.writeFails (s ++ "!" ++ letterOf ci ++
              toString ((findNameInSheet gw n s nc).row.getD 0))
          · rw [acrossLoop_cons_writeFail gw n c q nc s rest ci cv hf hcol hcv hw]
            exact ⟨_, rfl⟩
          · rw [acrossLoop_cons_writeOk gw n c q nc s rest ci cv hf hcol hcv
              (by simpa using hw)] at h
            exact absurd h (by simp)
    · rw [acrossLoop_cons_notFound gw n c q nc s rest (by simpa using hf)] at h ⊢
      exact ih h

/-- If the loop performed no write, it exhausted the sheets and reports the
uniform not-found failure. -/
theorem acrossLoop_no_write (gw : Gateway) (n c : String) (q : Dec)
    (nc : String) : ∀ L,
    (∀ call ∈ (acrossLoop gw n c q nc L).2, call.isWrite = false) →
    (acrossLoop gw n c q nc L).1 = acrossFail n := by
  intro L
  induction L with
  | nil => intro _; rfl
  | cons s rest ih =>
    intro h
    by_cases hf : (findNameInSheet gw n s nc).found
    · cases hcol : resolveFieldColumn
        (((findNameInSheet gw n s nc).allData.getD []).headD []) c with
      | none =>
        rw [acrossLoop_cons_noField gw n c q nc s rest hf hcol] at h ⊢
        exact ih (fun call hc => h call (List.mem_cons_of_mem _ hc))
      | some ci =>
        cases hcv : coerceCell
            (((findNameInSheet gw n s nc).rowData.getD []).get? ci) with
        | none =>
          rw [acrossLoop_cons_nan gw n c q nc s rest ci hf hcol hcv] at h ⊢
          exact ih (fun call hc => h call (List.mem_cons_of_mem _ hc))
        | some cv =>
          by_cases hw : gw.writeFails (s ++ "!" ++ letterOf ci ++
              toString ((findNameInSheet gw n s nc).row.getD 0))
          · rw [acrossLoop_cons_writeFail gw n c q nc s rest ci cv hf hcol hcv hw] at h
            have := h (Call.write (s ++ "!" ++ letterOf ci ++
              toString ((findNameInSheet gw n s nc).row.getD 0)) s ci
              ((findNameInSheet gw n s nc).row.getD 0) ((cv.add q).toJsString))
              (by simp)
            simp [Call.isWrite] at this
          · rw [acrossLoop_cons_writeOk gw n c q nc s rest ci cv hf hcol hcv
              (by simpa using hw)] at h
            have := h (Call.write (s ++ "!" ++ letterOf ci ++
              toString ((findNameInSheet gw n s nc).row.getD 0)) s ci
              ((findNameInSheet gw n s nc).row.getD 0) ((cv.add q).toJsString))
              (by simp)
            simp [Call.isWrite] at this
    · rw [acrossLoop_cons_notFound gw n c q nc s rest (by simpa using hf)] at h ⊢
      exact ih (fun call hc => h call (List.mem_cons_of_mem _ hc))

/-- On a failed loop, every write it issued was a failing write. -/
theorem acrossLoop_fail_writes (gw : Gateway) (n c : String) (q : Dec)
    (nc : String) : ∀ L, (acrossLoop gw n c q nc L).1.success = false →
    ∀ a s0 ci rn v, Call.write a s0 ci rn v ∈ (acrossLoop gw n c q nc L).2 →
    gw.writeFails a = true := by
  intro L
  induction L with
  | nil => intro _ a s0 ci rn v hm; simp [acrossLoop] at hm
  | cons s rest ih =>
    intro h a s0 ci rn v hm
    by_cases hf : (findNameInSheet gw n s nc).found
    · cases hcol : resolveFieldColumn
        (((findNameInSheet gw n s nc).allData.getD []).headD []) c with
      | none =>
        rw [acrossLoop_cons_noField gw n c q nc s rest hf hcol] at h hm
        rcases List.mem_cons.mp hm with hm | hm
        · exact absurd hm (by simp)
        · exact ih h a s0 ci rn v hm
      | some ci2 =>
        cases hcv : coerceCell
            (((findNameInSheet gw n s nc).rowData.getD []).get? ci2) with
        | none =>
          rw [acrossLoop_cons_nan gw n c q nc s rest ci2 hf hcol hcv] at h hm
          rcases List.mem_cons.mp hm with hm | hm
          · exact absurd hm (by simp)
          · exact ih h a s0 ci rn v hm
        | some cv =>
          by_cases hw : gw.writeFails (s ++ "!" ++ letterOf ci2 ++
              toString ((findNameInSheet gw n s nc).row.getD 0))
          · rw [acrossLoop_cons_writeFail gw n c q nc s rest ci2 cv hf hcol hcv hw] at hm
            rcases List.mem_cons.mp hm with hm | hm
            · exact absurd hm (by simp)
            · rcases List.mem_cons.mp hm with hm | hm
              · have ha : a = s ++ "!" ++ letterOf ci2 ++
                    toString ((findNameInSheet gw n s nc).row.getD 0) := by
                  cases hm; rfl
                rw [ha]; exact hw
              · exact absurd hm (by simp)
          · rw [acrossLoop_cons_writeOk gw n c q nc s rest ci2 cv hf hcol hcv
              (by simpa using hw)] at h
            exact absurd h (by simp)
    · rw [acrossLoop_cons_notFound gw n c q nc s rest (by simpa using hf)] at h hm
      rcases List.mem_cons.mp hm with hm | hm
      · exact absurd hm (by simp)
      · exact ih h a s0 ci rn v hm

/-- Full characterization of a successful loop exit. -/
theorem acrossLoop_success (gw : Gateway) (n c : String) (q : Dec)
    (nc : String) : ∀ L, (acrossLoop gw n c q nc L).1.success = true →
    ∃ s ci cv, s ∈ L ∧
      (findNameInSheet gw n s nc).found = true ∧
      resolveFieldColumn
        (((findNameInSheet gw n s nc).allData.getD []).headD []) c = some ci ∧
      coerceCell (((findNameInSheet gw n s nc).rowData.getD []).get? ci) = some cv ∧
      (acrossLoop gw n c q nc L).1 =
        ⟨true, some cv, some (cv.add q),
          some ((findNameInSheet gw n s nc).row.getD 0), some (ci + 1),
          some (letterOf ci), some s, none⟩ ∧
      (acrossLoop gw n c q nc L).2.filter Call.isWrite =
        [Call.write (s ++ "!" ++ letterOf ci ++
            toString ((findNameInSheet gw n s nc).row.getD 0)) s ci
          ((findNameInSheet gw n s nc).row.getD 0) ((cv.add q).toJsString)] ∧
      gw.writeFails (s ++ "!" ++ letterOf ci ++
        toString ((findNameInSheet gw n s nc).row.getD 0)) = false := by
  intro L
  induction L with
  | nil => intro h; simp [acrossLoop, acrossFail, IncRes.fail] at h
  | cons s rest ih =>
    intro h
    by_cases hf : (findNameInSheet gw n s nc).found
    · cases hcol : resolveFieldColumn
        (((findNameInSheet gw n s nc).allData.getD []).headD []) c with
      | none =>
        rw [acrossLoop_cons_noField gw n c q nc s rest hf hcol] at h ⊢
        rcases ih h with ⟨s2, ci, cv, hmem, rest2⟩
        exact ⟨s2, ci, cv, List.mem_cons_of_mem _ hmem, by simpa [Call.isWrite] using rest2⟩
      | some ci =>
        cases hcv : coerceCell
            (((findNameInSheet gw n s nc).rowData.getD []).get? ci) with
        | none =>
          rw [acrossLoop_cons_nan gw n c q nc s rest ci hf hcol hcv] at h ⊢
          rcases ih h with ⟨s2, ci2, cv, hmem, rest2⟩
          exact ⟨s2, ci2, cv, List.mem_cons_of_mem _ hmem,
            by simpa [Call.isWrite] using rest2⟩
        | some cv =>
          by_cases hw : gw.writeFails (s ++ "!" ++ letterOf ci ++
              toString ((findNameInSheet gw n s nc).row.getD 0))
          · rw [acrossLoop_cons_writeFail gw n c q nc s rest ci cv hf hcol hcv hw] at h
            exact absurd h (by simp [IncRes.fail])
          · rw [acrossLoop_cons_writeOk gw n c q nc s rest ci cv hf hcol hcv
              (by simpa using hw)]
            exact ⟨s, ci, cv, List.mem_cons_self s rest, hf, hcol, hcv, rfl,
              by simp [Call.isWrite], by simpa using hw⟩
    · rw [acrossLoop_cons_notFound gw n c q nc s rest (by simpa using hf)] at h ⊢
      rcases ih h with ⟨s2, ci, cv, hmem, rest2⟩
      exact ⟨s2, ci, cv, List.mem_cons_of_mem _ hmem,
        by simpa [Call.isWrite] using rest2⟩

/-- Equation for the across-sheets entry point when the listing succeeds. -/
theorem findAndIncrement_eq_loop (gw : Gateway) (n c : String) (q : Dec)
    (nc : String) (h : getSheetNames gw ≠ []) :
    findAndIncrementColumnValueAcrossSheets gw n c q nc =
      ((acrossLoop gw n c q nc (getSheetNames gw)).1,
        Call.listNames :: (acrossLoop gw n c q nc (getSheetNames gw)).2) := by
  unfold findAndIncrementColumnValueAcrossSheets
  rw [if_neg (by simpa [List.isEmpty_iff] using h)]

/-- Equation for the across-sheets entry point when the listing fails or is
empty. -/
theorem findAndIncrement_eq_empty (gw : Gateway) (n c : String) (q : Dec)
    (nc : String) (h : getSheetNames gw = []) :
    findAndIncrementColumnValueAcrossSheets gw n c q nc =
      (IncRes.fail "No sheets found in spreadsheet", [Call.listNames]) := by
  unfold findAndIncrementColumnValueAcrossSheets
  rw [if_pos (by simp [h])]

/-! ### Substring and row-match facts -/

theorem isPrefixOf_append_self (v r : List Char) : v.isPrefixOf (v ++ r) = true := by
  induction v with
  | nil => cases r <;> rfl
  | cons a t ih => simp [List.isPrefixOf, ih]

theorem containsSub_here (v s : List Char) : containsSub (v ++ s) v = true := by
  cases v with
  | nil =>
    cases s with
    | nil => rfl
    | cons b t => simp [containsSub, List.isPrefixOf]
  | cons a t => simp [containsSub, isPrefixOf_append_self]

theorem containsSub_append_left (p l pat : List Char)
    (h : containsSub l pat = true) : containsSub (p ++ l) pat = true := by
  induction p with
  | nil => simpa using h
  | cons a t ih => simp [containsSub, ih]

theorem strContains_append (pre v suf : String) :
    strContains (pre ++ v ++ suf) v = true := by
  show containsSub (pre ++ v ++ suf).data v.data = true
  rw [String.data_append, String.data_append, List.append_assoc]
  exact containsSub_append_left _ _ _ (containsSub_here _ _)

theorem rowMatches_eq_true_iff (key : String) (idx : Int) (row : List String) :
    rowMatches key idx row = true ↔
      row ≠ [] ∧ idx < (row.length : Int) ∧
      ∃ c, cellAt row idx = some c ∧ c ≠ "" ∧ jsTrim (jsToLower c) = key := by
  unfold rowMatches
  cases hc : cellAt row idx with
  | none => simp [hc]
  | some c =>
    simp [hc, Bool.and_eq_true, decide_eq_true_eq, List.isEmpty_iff, bne_iff_ne,
      beq_iff_eq, and_assoc]

/-! ### Batch-processing lemmas -/

theorem foldl_applyCall_id (gw : Gateway) (calls : List Call)
    (h : ∀ c ∈ calls, applyCall gw c = gw) : calls.foldl applyCall gw = gw := by
  induction calls with
  | nil => rfl
  | cons c rest ih =>
    rw [List.foldl_cons, h c (List.mem_cons_self c rest)]
    exact ih (fun d hd => h d (List.mem_cons_of_mem _ hd))

/-- On a failed across-sheets operation, every issued write was a failing
write. -/
theorem findAndIncrement_fail_writes (gw : Gateway) (n c : String) (q : Dec)
    (nc : String)
    (h : (findAndIncrementColumnValueAcrossSheets gw n c q nc).1.success = false) :
    ∀ a s0 ci rn v,
      Call.write a s0 ci rn v ∈ (findAndIncrementColumnValueAcrossSheets gw n c q nc).2 →
      gw.writeFails a = true := by
  intro a s0 ci rn v hm
  by_cases hns : getSheetNames gw = []
  · rw [findAndIncrement_eq_empty gw n c q nc hns] at hm
    simp at hm
  · rw [findAndIncrement_eq_loop gw n c q nc hns] at h hm
    rcases List.mem_cons.mp hm with hm | hm
    · exact absurd hm (by simp)
    · exact acrossLoop_fail_writes gw n c q nc _ h a s0 ci rn v hm

/-- A failed `applyOne` leaves the remote store untouched: each of its
calls has no effect. -/
theorem applyOne_fail_calls (gw : Gateway) (f0 : String) (u : UpdateReq)
    (h : (applyOne gw f0 u).1.success = false) :
    ∀ call ∈ (applyOne gw f0 u).2, applyCall gw call = gw := by
  intro call hc
  unfold applyOne at hc
  by_cases hv : u.name = "" ∨ u.department = "" ∨ u.field = ""
  · rw [if_pos hv] at hc
    simp at hc
  · rw [if_neg hv] at hc
    cases hd : departmentToSpreadsheetId u.department with
    | none =>
      rw [hd] at hc
      simp at hc
    | some sid =>
      rw [hd] at hc
      have hfail : (findAndIncrementColumnValueAcrossSheets gw u.name
          ((fieldMappings u.field).getD u.field) (u.increment.getD ⟨1, 0⟩)
          "USERNAME").1.success = false := by
        unfold applyOne at h
        rw [if_neg hv] at h
        rw [hd] at h
        exact h
      cases call with
      | listNames => rfl
      | read s => rfl
      | write a s0 ci rn v =>
        have hw : gw.writeFails a = true :=
          findAndIncrement_fail_writes gw u.name _ _ "USERNAME" hfail a s0 ci rn v hc
        simp [applyCall, hw]

theorem applyBatch_length (gw : Gateway) (f0 : String) (us : List UpdateReq) :
    (applyBatch gw f0 us).length = us.length := by
  induction us generalizing gw with
  | nil => rfl
  | cons u rest ih => simp [applyBatch, ih]

theorem applyBatch_get (f0 : String) (us : List UpdateReq) :
    ∀ (gw : Gateway) (i : Nat) (u : UpdateReq), us.get? i = some u →
    (applyBatch gw f0 us).get? i =
      some ((applyOne (batchGateway gw f0 (us.take i)) f0 u).1) := by
  induction us with
  | nil => intro gw i u h; simp at h
  | cons u0 rest ih =>
    intro gw i u h
    cases i with
    | zero =>
      have : u0 = u := by simpa using h
      subst this
      rfl
    | succ j =>
      have h2 : rest.get? j = some u := by simpa using h
      show (applyBatch ((applyOne gw f0 u0).2.foldl applyCall gw) f0 rest).get? j = _
      rw [ih ((applyOne gw f0 u0).2.foldl applyCall gw) j u h2]
      rfl

theorem applyBatch_isolation (gw : Gateway) (f0 : String) (u : UpdateReq)
    (rest : List UpdateReq) (h : (applyOne gw f0 u).1.success = false) :
    applyBatch gw f0 (u :: rest) =
      (applyOne gw f0 u).1 :: applyBatch gw f0 rest := by
  show (applyOne gw f0 u).1 ::
      applyBatch ((applyOne gw f0 u).2.foldl applyCall gw) f0 rest = _
  rw [foldl_applyCall_id gw _ (applyOne_fail_calls gw f0 u h)]

/-! ### Claims -/

/-- C4 (counterexample): the exhausted multi-sheet search does not
distinguish "name never found" from "name found but field unresolvable":
a workbook where alice is present but the PTS column is absent and a
workbook where alice is absent produce literally the same result (and the
same calls), although the name lookup succeeds only in the first. -/
theorem claim_C4_counterexample :
    findAndIncrementColumnValueAcrossSheets sampleNoField "alice" "PTS" ⟨1, 0⟩
        "USERNAME" =
      findAndIncrementColumnValueAcrossSheets sampleNoName "alice" "PTS" ⟨1, 0⟩
        "USERNAME" ∧
    (findNameInSheet sampleNoField "alice" "S" "USERNAME").found = true ∧
    (findNameInSheet sampleNoName "alice" "S" "USERNAME").found = false := by
  decide

/-- C4 (amended): when the multi-sheet search exhausts all sheets without
performing a write, it reports the single uniform failure
`User "<name>" not found in any sheet in the spreadsheet`, regardless of
whether the name was found in a sheet whose field column was unresolvable;
the two cases are not distinguished. -/
theorem claim_C4_amended (gw : Gateway) (n c : String) (q : Dec) (nc : String)
    (hns : getSheetNames gw ≠ [])
    (hnw : ∀ call ∈ (findAndIncrementColumnValueAcrossSheets gw n c q nc).2,
      call.isWrite = false) :
    (findAndIncrementColumnValueAcrossSheets gw n c q nc).1 = acrossFail n := by
  rw [findAndIncrement_eq_loop gw n c q nc hns] at hnw ⊢
  exact acrossLoop_no_write gw n c q nc _
    (fun call hc => hnw call (List.mem_cons_of_mem _ hc))

/-- C4 witness: the amended statement at the found-but-no-field workbook. -/
theorem claim_C4_witness :
    (findAndIncrementColumnValueAcrossSheets sampleNoField "alice" "PTS" ⟨1, 0⟩
      "USERNAME").1 = acrossFail "alice" :=
  claim_C4_amended sampleNoField "alice" "PTS" ⟨1, 0⟩ "USERNAME" (by decide)
    (by decide)

/-- C5 (counterexample): the row locator returns literally identical results
when the name column cannot be resolved (`"Nope"`) and when it resolves but
no data row matches (`"Username"` with query `"zzz"`); the two failure modes
carry no distinct reason in the returned value. -/
theorem claim_C5_counterexample :
    findNameInSheet sampleAlice3 "zzz" "S" "Nope" =
      findNameInSheet sampleAlice3 "zzz" "S" "Username" ∧
    resolveNameColumn ["Username", "Pts"] "Nope" = none ∧
    resolveNameColumn ["Username", "Pts"] "Username" = some 0 ∧
    (findNameInSheet sampleAlice3 "zzz" "S" "Username").found = false := by
  decide

/-- C5 (amended): both failure modes — name column unresolvable, and column
resolved but no data row matched — return the same record
`{found := false, allData := grid}`; the distinct reason exists only in a
console log, not in the returned result. -/
theorem claim_C5_amended (gw : Gateway) (name sheetName nameColumn : String)
    (grid : Grid) (hga : readAtoZ gw sheetName = some grid)
    (hemp : grid.isEmpty = false) :
    (resolveNameColumn (grid.headD []) nameColumn = none →
      findNameInSheet gw name sheetName nameColumn =
        ⟨false, none, none, some grid⟩) ∧
    (∀ idx, resolveNameColumn (grid.headD []) nameColumn = some idx →
      findRow (normKey name) idx (grid.drop 1) 1 = none →
      findNameInSheet gw name sheetName nameColumn =
        ⟨false, none, none, some grid⟩) :=
  ⟨fun hcol =>
    findNameInSheet_col_unresolved gw name sheetName nameColumn grid hga hemp hcol,
   fun idx hcol hrow =>
    findNameInSheet_no_row gw name sheetName nameColumn grid idx hga hemp hcol hrow⟩

/-- C5 witness: the amended statement at a concrete unresolvable column. -/
theorem claim_C5_witness :
    findNameInSheet sampleAlice3 "zzz" "S" "Nope" =
      ⟨false, none, none, some [["Username", "Pts"], ["alice", "3"]]⟩ :=
  (claim_C5_amended sampleAlice3 "zzz" "S" "Nope"
    [["Username", "Pts"], ["alice", "3"]] (by decide) (by decide)).1 (by decide)

/-- C6 (confirmed): whenever the row locator reports a match, the reported
`rowNumber` is `j + 2` for the zero-based grid index `j + 1` of the matched
data row (header row is row 1), the matched row is a genuine match, and
every earlier data row fails the match — so with duplicate matching rows,
the one with the lowest row number wins and later duplicates are never the
result. -/
theorem claim_C6 (gw : Gateway) (name sheetName nameColumn : String) (r : Nat)
    (hf : (findNameInSheet gw name sheetName nameColumn).found = true)
    (hr : (findNameInSheet gw name sheetName nameColumn).row = some r) :
    ∃ grid idx j row,
      readAtoZ gw sheetName = some grid ∧
      resolveNameColumn (grid.headD []) nameColumn = some idx ∧
      (findNameInSheet gw name sheetName nameColumn).rowData = some row ∧
      grid.get? (j + 1) = some row ∧
      r = (j + 1) + 1 ∧
      rowMatches (normKey name) idx row = true ∧
      (∀ k, 1 ≤ k → k < j + 1 → ∀ rk, grid.get? k = some rk →
        rowMatches (normKey name) idx rk = false) := by
  rcases findNameInSheet_found gw name sheetName nameColumn hf with
    ⟨grid, idx, r2, row, hga, hemp, hcol, hrow, heq⟩
  have hr2 : r2 = r := by rw [heq] at hr; simpa using hr
  subst hr2
  rcases (findRow_eq_some_iff (normKey name) idx (grid.drop 1) 1 r2 row).mp hrow with
    ⟨j, hj, hm, hrn, hmin⟩
  refine ⟨grid, idx, j, row, hga, hcol, by rw [heq], ?_, by omega, hm, ?_⟩
  · rw [List.get?_drop] at hj
    simpa [Nat.add_comm] using hj
  · intro k hk1 hkj rk hrk
    have hidx : (grid.drop 1).get? (k - 1) = some rk := by
      rw [List.get?_drop]
      have hke : 1 + (k - 1) = k := by omega
      rw [hke]
      exact hrk
    exact hmin (k - 1) (by omega) rk hidx

/-- C6 witness: with two rows both normalizing to `bob`, the locator
reports row 2 (grid index 1), never the later duplicate. -/
theorem claim_C6_witness :
    (findNameInSheet sampleDup "Bob" "S" "Username").found = true ∧
    (findNameInSheet sampleDup "Bob" "S" "Username").row = some 2 ∧
    (∃ grid idx j row,
      readAtoZ sampleDup "S" = some grid ∧
      resolveNameColumn (grid.headD []) "Username" = some idx ∧
      (findNameInSheet sampleDup "Bob" "S" "Username").rowData = some row ∧
      grid.get? (j + 1) = some row ∧
      2 = (j + 1) + 1 ∧
      rowMatches (normKey "Bob") idx row = true ∧
      (∀ k, 1 ≤ k → k < j + 1 → ∀ rk, grid.get? k = some rk →
        rowMatches (normKey "Bob") idx rk = false)) :=
  ⟨by decide, by decide,
    claim_C6 sampleDup "Bob" "S" "Username" 2 (by decide) (by decide)⟩

/-- C8 (confirmed): a well-formed request (non-empty name, department and
field) whose department is not a key of `departmentToSpreadsheetId` fails
immediately with the `Unknown department` message and performs zero gateway
calls. -/
theorem claim_C8 (gw : Gateway) (f0 : String) (u : UpdateReq)
    (hn : u.name ≠ "") (hd : u.department ≠ "") (hf : u.field ≠ "")
    (hu : departmentToSpreadsheetId u.department = none) :
    applyOne gw f0 u =
      (ReqResult.fail ("Unknown department: " ++ u.department)
        u.name u.department f0, []) := by
  unfold applyOne
  rw [if_neg (by simp [hn, hd, hf])]
  simp only [hu]

/-- C8 witness: the department `XYZ` is unmapped; zero calls result. -/
theorem claim_C8_witness :
    applyOne sampleEmpty "pts" ⟨"alice", "XYZ", "pts", none⟩ =
      (ReqResult.fail "Unknown department: XYZ" "alice" "XYZ" "pts", []) :=
  claim_C8 sampleEmpty "pts" ⟨"alice", "XYZ", "pts", none⟩ (by decide) (by decide)
    (by decide) (by decide)

/-- C9 (counterexample): a failed gateway read is not converted into a
failed result: with the first sheet's read failing and alice present in
the second sheet, the request still succeeds even though a failing read
call was made during its processing. -/
theorem claim_C9_counterexample :
    sampleReadFail.readFails "A" = true ∧
    Call.read "A" ∈ (findAndIncrementColumnValueAcrossSheets sampleReadFail
      "alice" "PTS" ⟨1, 0⟩ "USERNAME").2 ∧
    (findAndIncrementColumnValueAcrossSheets sampleReadFail
      "alice" "PTS" ⟨1, 0⟩ "USERNAME").1.success = true := by decide

/-- C9 (amended): the across-sheets operation always returns a structured
result (no exception escapes it); every failed outcome is an `IncRes.fail`
carrying a message, and a failed sheet listing yields the dedicated
`No sheets found in spreadsheet` failure.  A failed read of one sheet,
however, only makes that sheet look name-less: the request may still
succeed through a later sheet. -/
theorem claim_C9_amended :
    (∀ (gw : Gateway) (n c : String) (q : Dec) (nc : String),
      (findAndIncrementColumnValueAcrossSheets gw n c q nc).1.success = false →
      ∃ m, (findAndIncrementColumnValueAcrossSheets gw n c q nc).1 =
        IncRes.fail m) ∧
    (∀ (gw : Gateway) (n c : String) (q : Dec) (nc : String),
      gw.listFails = true →
      findAndIncrementColumnValueAcrossSheets gw n c q nc =
        (IncRes.fail "No sheets found in spreadsheet", [Call.listNames])) := by
  constructor
  · intro gw n c q nc h
    by_cases hns : getSheetNames gw = []
    · rw [findAndIncrement_eq_empty gw n c q nc hns]
      exact ⟨_, rfl⟩
    · rw [findAndIncrement_eq_loop gw n c q nc hns] at h ⊢
      exact acrossLoop_fail_shape gw n c q nc _ h
  · intro gw n c q nc h
    exact findAndIncrement_eq_empty gw n c q nc (by simp [getSheetNames, h])

/-- C9 witness: the amended statement at a store whose listing fails. -/
theorem claim_C9_witness :
    findAndIncrementColumnValueAcrossSheets sampleListFail "alice" "PTS" ⟨1, 0⟩
        "USERNAME" =
      (IncRes.fail "No sheets found in spreadsheet", [Call.listNames]) :=
  claim_C9_amended.2 sampleListFail "alice" "PTS" ⟨1, 0⟩ "USERNAME" (by decide)

/-- C10 (confirmed): whenever the row locator reports a match, the matched
row's cell in the name column exists (the row reaches the column) and is a
non-empty string whose normalization equals the query key — so a row with
an empty or absent name cell is never returned, for any query, including
queries normalizing to the empty string. -/
theorem claim_C10 (gw : Gateway) (name sheetName nameColumn : String)
    (h : (findNameInSheet gw name sheetName nameColumn).found = true) :
    ∃ grid idx row c,
      readAtoZ gw sheetName = some grid ∧
      resolveNameColumn (grid.headD []) nameColumn = some idx ∧
      (findNameInSheet gw name sheetName nameColumn).rowData = some row ∧
      cellAt row idx = some c ∧ c ≠ "" ∧
      jsTrim (jsToLower c) = normKey name := by
  rcases findNameInSheet_found gw name sheetName nameColumn h with
    ⟨grid, idx, r, row, hga, hemp, hcol, hrow, heq⟩
  rcases (findRow_eq_some_iff _ _ _ _ _ _).mp hrow with ⟨j, hj, hm, _, _⟩
  rcases (rowMatches_eq_true_iff _ _ _).mp hm with ⟨_, _, c, hc, hcne, hck⟩
  exact ⟨grid, idx, row, c, hga, hcol, by rw [heq], hc, hcne, hck⟩

/-- C10 witness: a found row has a non-empty name cell, and a grid whose
data row has an empty name cell reports not-found even for a query that
normalizes to the empty string. -/
theorem claim_C10_witness :
    (findNameInSheet sampleAlice3 "alice" "S" "Username").found = true ∧
    (∃ grid idx row c,
      readAtoZ sampleAlice3 "S" = some grid ∧
      resolveNameColumn (grid.headD []) "Username" = some idx ∧
      (findNameInSheet sampleAlice3 "alice" "S" "Username").rowData = some row ∧
      cellAt row idx = some c ∧ c ≠ "" ∧
      jsTrim (jsToLower c) = normKey "alice") ∧
    (findNameInSheet sampleEmptyName "   " "S" "Username").found = false :=
  ⟨by decide, claim_C10 sampleAlice3 "alice" "S" "Username" (by decide), by decide⟩

/-- C1 (counterexample): in the deployed across-sheets increment, a located
non-numeric cell does not fail the request with a message naming the
literal: with one sheet holding `N/A` the request fails with the generic
not-found message, which does not contain `N/A`; and with a second sheet
available the same malformed cell does not even fail the request — a write
is performed against the later sheet and the request succeeds. -/
theorem claim_C1_counterexample :
    (findAndIncrementColumnValueAcrossSheets sampleNA "alice" "PTS" ⟨1, 0⟩
      "USERNAME").1.success = false ∧
    (findAndIncrementColumnValueAcrossSheets sampleNA "alice" "PTS" ⟨1, 0⟩
      "USERNAME").1.message =
      some "User \x22alice\x22 not found in any sheet in the spreadsheet" ∧
    strContains "User \x22alice\x22 not found in any sheet in the spreadsheet"
      "N/A" = false ∧
    jsNumber "N/A" = none ∧
    (findAndIncrementColumnValueAcrossSheets sampleNAThenNum "alice" "PTS" ⟨1, 0⟩
      "USERNAME").1.success = true ∧
    (findAndIncrementColumnValueAcrossSheets sampleNAThenNum "alice" "PTS" ⟨1, 0⟩
      "USERNAME").2.filter Call.isWrite ≠ [] := by decide

/-- C1 (amended): in `incrementColumnValueForUser` a located non-numeric
cell does fail the request with success=false, a message containing the
offending literal, and no write call; in
`findAndIncrementColumnValueAcrossSheets` a non-numeric cell is never
defaulted to zero but only causes the sheet to be skipped without a write
to it — when the workbook has a single sheet the request then fails with
the generic not-found message and no write at all. -/
theorem claim_C1_amended :
    (∀ (gw : Gateway) (name columnName : String) (q : Dec)
      (sheetName nameColumn v : String),
      (findColumnValueForUser gw name columnName sheetName nameColumn).found =
        true →
      (findColumnValueForUser gw name columnName sheetName nameColumn).value =
        some (some v) →
      jsNumber v = none →
      incrementColumnValueForUser gw name columnName q sheetName nameColumn =
        (IncRes.fail ("Value \x27" ++ v ++ "\x27 in " ++ columnName ++
          " for user " ++ name ++ " is not a number"), [Call.read sheetName]) ∧
      strContains ("Value \x27" ++ v ++ "\x27 in " ++ columnName ++
        " for user " ++ name ++ " is not a number") v = true) ∧
    (∀ (gw : Gateway) (name columnName : String) (q : Dec)
      (nameColumn s : String) (ci : Nat) (v : String),
      getSheetNames gw = [s] →
      (findNameInSheet gw name s nameColumn).found = true →
      resolveFieldColumn
        (((findNameInSheet gw name s nameColumn).allData.getD []).headD [])
        columnName = some ci →
      ((findNameInSheet gw name s nameColumn).rowData.getD []).get? ci = some v →
      jsNumber v = none →
      findAndIncrementColumnValueAcrossSheets gw name columnName q nameColumn =
        (acrossFail name, [Call.listNames, Call.read s])) := by
  constructor
  · intro gw name columnName q sheetName nameColumn v hf hv hnan
    constructor
    · simp only [incrementColumnValueForUser]
      rw [hf, if_neg (by decide)]
      rw [hv]
      show (match jsNumber v with
        | none => _
        | some cv => _) = _
      rw [hnan]
    · have h0 : strContains ("Value \x27" ++ v ++ ("\x27 in " ++ columnName ++
          " for user " ++ name ++ " is not a number")) v = true :=
        strContains_append _ _ _
      have heq : "Value \x27" ++ v ++ "\x27 in " ++ columnName ++
          " for user " ++ name ++ " is not a number" =
          "Value \x27" ++ v ++ ("\x27 in " ++ columnName ++ " for user " ++
            name ++ " is not a number") := by
        simp [String.append_assoc]
      rw [heq]
      exact h0
  · intro gw name columnName q nameColumn s ci v hns hf hcol hcell hnan
    have hls : getSheetNames gw ≠ [] := by rw [hns]; simp
    rw [findAndIncrement_eq_loop gw name columnName q nameColumn hls, hns]
    have hco : coerceCell
        (((findNameInSheet gw name s nameColumn).rowData.getD []).get? ci) =
        none := by
      rw [hcell]
      simpa [coerceCell] using hnan
    rw [acrossLoop_cons_nan gw name columnName q nameColumn s [] ci hf hcol hco]
    rfl

/-- C1 witness: the single-sheet amended statement at the `N/A` workbook. -/
theorem claim_C1_witness :
    incrementColumnValueForUser sampleNA "alice" "PTS" ⟨1, 0⟩ "S" "USERNAME" =
      (IncRes.fail ("Value \x27" ++ "N/A" ++ "\x27 in " ++ "PTS" ++
        " for user " ++ "alice" ++ " is not a number"), [Call.read "S"]) ∧
    strContains ("Value \x27" ++ "N/A" ++ "\x27 in " ++ "PTS" ++
      " for user " ++ "alice" ++ " is not a number") "N/A" = true :=
  claim_C1_amended.1 sampleNA "alice" "PTS" ⟨1, 0⟩ "S" "USERNAME" "N/A"
    (by decide) (by decide) (by decide)

/-- C2 (confirmed): every successful across-sheets increment reports
`previousValue` equal to the coercion of the located cell (0 for an empty
or missing cell), `newValue = previousValue + amount`, and issues exactly
one write, of the textual representation of `newValue`, at the single cell
address `sheetName!<columnLetter><rowNumber>`. -/
theorem claim_C2 (gw : Gateway) (n c : String) (q : Dec) (nc : String)
    (h : (findAndIncrementColumnValueAcrossSheets gw n c q nc).1.success = true) :
    ∃ s ci cv rn row grid,
      findNameInSheet gw n s nc = ⟨true, some rn, some row, some grid⟩ ∧
      resolveFieldColumn (grid.headD []) c = some ci ∧
      coerceCell (row.get? ci) = some cv ∧
      (findAndIncrementColumnValueAcrossSheets gw n c q nc).1 =
        ⟨true, some cv, some (cv.add q), some rn, some (ci + 1),
          some (letterOf ci), some s, none⟩ ∧
      (findAndIncrementColumnValueAcrossSheets gw n c q nc).2.filter
          Call.isWrite =
        [Call.write (s ++ "!" ++ letterOf ci ++ toString rn) s ci rn
          ((cv.add q).toJsString)] := by
  by_cases hns : getSheetNames gw = []
  · rw [findAndIncrement_eq_empty gw n c q nc hns] at h
    exact absurd h (by simp [IncRes.fail])
  · rw [findAndIncrement_eq_loop gw n c q nc hns] at h ⊢
    rcases acrossLoop_success gw n c q nc _ h with
      ⟨s, ci, cv, hmem, hfound, hcol, hcv, hres, hfilter, hwf⟩
    rcases findNameInSheet_found gw n s nc hfound with
      ⟨grid, idx, rn, row, hga, hemp, hcoln, hrow, heq⟩
    rw [heq] at hcol hcv hres hfilter
    refine ⟨s, ci, cv, rn, row, grid, heq, by simpa using hcol,
      by simpa using hcv, by simpa using hres, ?_⟩
    simp only [List.filter]
    simpa [Call.isWrite] using hfilter

/-- C2 witness: cell `7` with amount 3 gives 7 then 10 and a write of
`"10"`; an empty cell with amount 5 gives 0 then 5. -/
theorem claim_C2_witness :
    (findAndIncrementColumnValueAcrossSheets sampleSeven "alice" "PTS" ⟨3, 0⟩
      "USERNAME").1.success = true ∧
    (∃ s ci cv rn row grid,
      findNameInSheet sampleSeven "alice" s "USERNAME" =
        ⟨true, some rn, some row, some grid⟩ ∧
      resolveFieldColumn (grid.headD []) "PTS" = some ci ∧
      coerceCell (row.get? ci) = some cv ∧
      (findAndIncrementColumnValueAcrossSheets sampleSeven "alice" "PTS" ⟨3, 0⟩
        "USERNAME").1 =
        ⟨true, some cv, some (cv.add ⟨3, 0⟩), some rn, some (ci + 1),
          some (letterOf ci), some s, none⟩ ∧
      (findAndIncrementColumnValueAcrossSheets sampleSeven "alice" "PTS" ⟨3, 0⟩
        "USERNAME").2.filter Call.isWrite =
        [Call.write (s ++ "!" ++ letterOf ci ++ toString rn) s ci rn
          ((cv.add ⟨3, 0⟩).toJsString)]) ∧
    (findAndIncrementColumnValueAcrossSheets sampleSeven "alice" "PTS" ⟨3, 0⟩
      "USERNAME").1.previousValue = some (.num ⟨7, 0⟩) ∧
    (findAndIncrementColumnValueAcrossSheets sampleSeven "alice" "PTS" ⟨3, 0⟩
      "USERNAME").1.newValue = some (.num ⟨10, 0⟩) ∧
    (findAndIncrementColumnValueAcrossSheets sampleEmptyCell "bob" "PTS" ⟨5, 0⟩
      "USERNAME").1.previousValue = some (.num ⟨0, 0⟩) ∧
    (findAndIncrementColumnValueAcrossSheets sampleEmptyCell "bob" "PTS" ⟨5, 0⟩
      "USERNAME").1.newValue = some (.num ⟨5, 0⟩) :=
  ⟨by decide, claim_C2 sampleSeven "alice" "PTS" ⟨3, 0⟩ "USERNAME" (by decide),
    by decide, by decide, by decide, by decide⟩

/-- C3 (confirmed): the batch produces exactly one result per request in
input order (result `i` is `applyOne` of request `i` against the store
state left by the first `i` requests), and a failed request leaves the
store untouched, so the remaining requests are processed exactly as if
started from the same state; no request is processed twice. -/
theorem claim_C3 :
    (∀ (gw : Gateway) (f0 : String) (us : List UpdateReq),
      (applyBatch gw f0 us).length = us.length) ∧
    (∀ (gw : Gateway) (f0 : String) (us : List UpdateReq) (i : Nat)
      (u : UpdateReq), us.get? i = some u →
      (applyBatch gw f0 us).get? i =
        some ((applyOne (batchGateway gw f0 (us.take i)) f0 u).1)) ∧
    (∀ (gw : Gateway) (f0 : String) (u : UpdateReq) (rest : List UpdateReq),
      (applyOne gw f0 u).1.success = false →
      applyBatch gw f0 (u :: rest) =
        (applyOne gw f0 u).1 :: applyBatch gw f0 rest) :=
  ⟨applyBatch_length,
   fun gw f0 us i u h => applyBatch_get f0 us gw i u h,
   applyBatch_isolation⟩

/-- C3 witness: a request with an unmapped department fails, and the tail
of the batch is processed exactly as from the same store state. -/
theorem claim_C3_witness :
    (applyOne sampleEmpty "pts" ⟨"alice", "XYZ", "pts", none⟩).1.success =
      false ∧
    applyBatch sampleEmpty "pts"
        [⟨"alice", "XYZ", "pts", none⟩, ⟨"bob", "FMB", "pts", none⟩] =
      (applyOne sampleEmpty "pts" ⟨"alice", "XYZ", "pts", none⟩).1 ::
        applyBatch sampleEmpty "pts" [⟨"bob", "FMB", "pts", none⟩] :=
  ⟨by decide,
    claim_C3.2.2 sampleEmpty "pts" ⟨"alice", "XYZ", "pts", none⟩
      [⟨"bob", "FMB", "pts", none⟩] (by decide)⟩

/-- C7 (counterexample): the two column resolvers do not implement the
claimed single rule: the name-column resolver misses a header that matches
only after trimming, and the field-column resolver resolves a single-letter
specifier by header lookup, not by alphabet position. -/
theorem claim_C7_counterexample :
    resolveNameColumn [" username"] "Username" = none ∧
    jsTrim (jsToLower " username") = jsTrim (jsToLower "Username") ∧
    resolveFieldColumn ["B", "A"] "A" = some 1 := by decide

/-- C7 (amended): there are two distinct resolvers.  The name-column
resolver resolves a one-character specifier to `toUpper charcode - 65`
regardless of the header row, and a longer specifier to the first header
whose lowercased (untrimmed) value equals the lowercased specifier.  The
field-column resolver has no letter branch: every specifier resolves to
the first non-empty header whose trimmed lowercased value equals the
trimmed lowercased specifier. -/
theorem claim_C7_amended :
    (∀ (hr : List String) (ch : Char),
      resolveNameColumn hr (String.singleton ch) =
        some ((ch.toUpper.toNat : Int) - 65)) ∧
    (∀ (hr : List String) (spec : String), 1 < spec.length → ∀ i : Nat,
      (resolveNameColumn hr spec = some (i : Int) ↔
        (∃ h, hr.get? i = some h ∧ jsToLower h = jsToLower spec) ∧
        ∀ j, j < i → ∀ h2, hr.get? j = some h2 →
          jsToLower h2 ≠ jsToLower spec)) ∧
    (∀ (hr : List String) (spec : String) (i : Nat),
      resolveFieldColumn hr spec = some i ↔
        (∃ h, hr.get? i = some h ∧ h ≠ "" ∧
          jsTrim (jsToLower h) = jsTrim (jsToLower spec)) ∧
        ∀ j, j < i → ∀ h2, hr.get? j = some h2 →
          (h2 = "" ∨ jsTrim (jsToLower h2) ≠ jsTrim (jsToLower spec))) := by
  refine ⟨fun hr ch => rfl, ?_, ?_⟩
  · intro hr spec hlen i
    unfold resolveNameColumn
    rw [if_pos hlen]
    constructor
    · intro h
      cases hj : jsFindIndex (fun h => jsToLower h == jsToLower spec) hr with
      | none => rw [hj] at h; simp at h
      | some m =>
      rw [hj] at h
      have hmi : m = i := by
        have hmc : ((m : Nat) : Int) = ((i : Nat) : Int) := by simpa using h
        exact_mod_cast hmc
      rw [hmi] at hj
      rcases (jsFindIndex_eq_some_iff
          (fun h => jsToLower h == jsToLower spec) hr i).mp hj with
        ⟨⟨a, ha, hpa⟩, hmin⟩
      refine ⟨⟨a, ha, by simpa [beq_iff_eq] using hpa⟩, ?_⟩
      intro j hj h2 hh2
      have hb := hmin j hj h2 hh2
      simpa [beq_eq_false_iff_ne] using hb
    · rintro ⟨⟨a, ha, haeq⟩, hmin⟩
      have hfi : jsFindIndex (fun h => jsToLower h == jsToLower spec) hr =
          some i := by
        refine (jsFindIndex_eq_some_iff _ hr i).mpr
          ⟨⟨a, ha, by simp [beq_iff_eq, haeq]⟩, ?_⟩
        intro j hj b hb
        simpa [beq_eq_false_iff_ne] using hmin j hj b hb
      simp [hfi]
  · intro hr spec i
    have hp_true : ∀ h2 : String,
        ((h2 != "" && (jsTrim (jsToLower h2) == jsTrim (jsToLower spec))) =
          true) ↔
        (h2 ≠ "" ∧ jsTrim (jsToLower h2) = jsTrim (jsToLower spec)) := by
      intro h2
      simp [Bool.and_eq_true, bne_iff_ne, beq_iff_eq]
    have hp_false : ∀ h2 : String,
        ((h2 != "" && (jsTrim (jsToLower h2) == jsTrim (jsToLower spec))) =
          false) ↔
        (h2 = "" ∨ jsTrim (jsToLower h2) ≠ jsTrim (jsToLower spec)) := by
      intro h2
      rw [Bool.eq_false_iff, Ne, hp_true h2]
      tauto
    unfold resolveFieldColumn
    constructor
    · intro h
      rcases (jsFindIndex_eq_some_iff _ hr i).mp h with ⟨⟨a, ha, hpa⟩, hmin⟩
      refine ⟨⟨a, ha, (hp_true a).mp hpa⟩, ?_⟩
      intro j hj h2 hh2
      exact (hp_false h2).mp (hmin j hj h2 hh2)
    · rintro ⟨⟨a, ha, hpa⟩, hmin⟩
      refine (jsFindIndex_eq_some_iff _ hr i).mpr
        ⟨⟨a, ha, (hp_true a).mpr hpa⟩, ?_⟩
      intro j hj b hb
      exact (hp_false b).mpr (hmin j hj b hb)

/-- C7 witness: the letter branch of the name resolver, the untrimmed
header match of the name resolver, and the header-only field resolver at
concrete inputs. -/
theorem claim_C7_witness :
    resolveNameColumn ["Pts"] (String.singleton 'B') = some 1 ∧
    resolveNameColumn ["x", "username"] "Username" = some 1 ∧
    resolveFieldColumn ["B", " a "] "A" = some 1 :=
  ⟨(claim_C7_amended.1 ["Pts"] 'B').trans (by decide),
   (claim_C7_amended.2.1 ["x", "username"] "Username" (by decide) 1).mpr
     ⟨⟨"username", by decide, by decide⟩, by
       intro j hj h2 hh2
       have hj0 : j = 0 := by omega
       subst hj0
       have : h2 = "x" := by simpa using hh2.symm
       subst this
       decide⟩,
   (claim_C7_amended.2.2 ["B", " a "] "A" 1).mpr
     ⟨⟨" a ", by decide, by decide, by decide⟩, by
       intro j hj h2 hh2
       have hj0 : j = 0 := by omega
       subst hj0
       have : h2 = "B" := by simpa using hh2.symm
       subst this
       right
       decide⟩⟩

end SpreadsheetPoster
